import Mathlib

/-
  Verification of the S3 storage Folder implementation
  (pkg/storages/s3/folder.go) and the object-copy engine
  (internal/copy). The Go code is shallowly embedded: the S3
  client is a record of response functions, the shared mutable
  Config record (reached through a pointer in Go) is threaded
  explicitly, and every operation returns its result together
  with the possibly-updated Config.
-/

namespace S3

/-- The single-quote character, used inside the Go error-message
format strings of folder.go. -/
def sq : String := (Char.ofNat 39).toString

def NotFoundAWSErrorCode : String := "NotFound"

def NoSuchKeyAWSErrorCode : String := "NoSuchKey"

def VersioningDefault : String := ""

def VersioningEnabled : String := "enabled"

def VersioningDisabled : String := "disabled"

/-- The aws-sdk constant s3.BucketVersioningStatusEnabled. -/
def BucketVersioningStatusEnabled : String := "Enabled"

/-- An error value returned by the aws-sdk client: awserr.Error,
carrying a code and a message. -/
structure AwsError where
  code : String
  message : String
deriving DecidableEq, Repr

/-- isAwsNotExist from folder.go: the error code is NotFound or
NoSuchKey. (Every backend error in this model is an awserr.Error,
so the Go type assertion always succeeds.) -/
def isAwsNotExist (err : AwsError) : Bool :=
  err.code == NotFoundAWSErrorCode || err.code == NoSuchKeyAWSErrorCode

/-- The mutable Config record (Go: *Config, shared by pointer between
a Folder and all of its sub-folders). EnableVersioning is the cached
versioning-mode tri-state: "" unknown, "enabled", "disabled". -/
structure Config where
  bucket : String
  enableVersioning : String
  rangeBatchEnabled : Bool
  rangeMaxRetries : Int
  useListObjectsV1 : Bool
deriving DecidableEq, Repr

/-- The Folder struct of folder.go. configRef is the identity of the
shared Config cell the Go pointer refers to (see Store below). -/
structure Folder where
  bucket : String
  path : String
  configRef : Nat
deriving DecidableEq, Repr

/-- strings.HasPrefix s pre. -/
def strStarts (s pre : String) : Bool :=
  pre.data.isPrefixOf s.data

/-- strings.HasSuffix s suf. -/
def strEnds (s suf : String) : Bool :=
  suf.data.isSuffixOf s.data

/-- strings.TrimPrefix s pre: drops pre when it leads s, otherwise
returns s unchanged. -/
def goTrimPre (s pre : String) : String :=
  if strStarts s pre then String.mk (s.data.drop pre.data.length) else s

/-- Modelled from the spec: storage.AddDelimiterToPath (not under src).
The stored prefix always ends with the path delimiter, normalizing
empty and delimiter-less inputs. -/
def AddDelimiterToPath (path : String) : String :=
  if path = "" then path
  else if strEnds path "/" then path
  else path ++ "/"

/-- Modelled from the spec: storage.JoinPath (not under src). Per the
spec, a sub-folder prefix is the parent prefix followed by the relative
path, so the join is plain concatenation. -/
def JoinPath (a b : String) : String := a ++ b

/-- NewFolder from folder.go: trims a leading slash and normalizes the
trailing delimiter; the bucket is read from the Config, and the Config
cell itself (configRef) is shared, not copied. -/
def NewFolder (cfg : Config) (ref : Nat) (path : String) : Folder :=
  { bucket := cfg.bucket
    path := AddDelimiterToPath (goTrimPre path "/")
    configRef := ref }

/-- GetSubFolder from folder.go: prefix concatenation plus a trailing
delimiter; passes the same Config cell to the sub-folder. -/
def GetSubFolder (cfg : Config) (f : Folder) (rel : String) : Folder :=
  NewFolder cfg f.configRef (JoinPath f.path rel ++ "/")

/-- A leaf entry of a plain (non-versioned) listing page: s3.Object. -/
structure ObjEntry where
  key : String
  lastModified : Nat
  size : Int
deriving DecidableEq, Repr

/-- One page of a plain listing: common prefixes and contents. -/
structure ObjPage where
  commonPrefs : List String
  contents : List ObjEntry
deriving DecidableEq, Repr

/-- A version entry of a version-aware listing: s3.ObjectVersion. -/
structure VEntry where
  key : String
  versionId : String
  isLatest : Bool
  lastModified : Nat
  size : Int
deriving DecidableEq, Repr

/-- A delete-marker entry: s3.DeleteMarkerEntry (carries no size). -/
structure MEntry where
  key : String
  versionId : String
  isLatest : Bool
  lastModified : Nat
deriving DecidableEq, Repr

/-- One page of a version-aware listing. -/
structure VPage where
  commonPrefs : List String
  versions : List VEntry
  deleteMarkers : List MEntry
deriving DecidableEq, Repr

/-- The output of a one-shot ListObjectVersions call. -/
structure VersionsOut where
  versions : List VEntry
  deleteMarkers : List MEntry
deriving DecidableEq, Repr

/-- s3.ObjectIdentifier: a (key, version-id) pair for deletion. -/
structure ObjectIdentifier where
  key : String
  versionId : Option String
deriving DecidableEq, Repr

/-- Modelled from the spec: the storage.Object listing record (not
under src) -- a relative name, timestamp, size and the optional
additional-info string encoding version identity. -/
structure StorageObj where
  name : String
  lastModified : Nat
  size : Int
  additionalInfo : String
deriving DecidableEq, Repr

/-- Modelled from the spec: storage.NewLocalObject (not under src). -/
def NewLocalObject (name : String) (lm : Nat) (size : Int) : StorageObj :=
  ⟨name, lm, size, ""⟩

/-- Modelled from the spec: storage.NewLocalObjectWithAdditionalInfo
(not under src). -/
def NewLocalObjectWithAdditionalInfo (name : String) (lm : Nat)
    (size : Int) (info : String) : StorageObj :=
  ⟨name, lm, size, info⟩

/-- The typed error taxonomy surfaced by Folder operations:
storage.NewObjectNotFoundError and errors.Wrapf results. -/
inductive StorageError where
  | objectNotFound (path : String)
  | wrapped (msg : String) (cause : AwsError)
deriving DecidableEq, Repr

/-- The S3 client (s3iface.S3API) as a record of response functions.
Each field is one API call used by folder.go, taking the bucket and
the request parameters. -/
structure Backend where
  headObject : String → String → Except AwsError Unit
  getObject : String → String → Except AwsError (List Nat)
  getBucketVersioning : String → Except AwsError (Option String)
  listObjectVersions : String → String → Except AwsError VersionsOut
  listObjectVersionsPages : String → String → String → List VPage × Option AwsError
  listObjectsPagesV1 : String → String → String → List ObjPage × Option AwsError
  listObjectsPagesV2 : String → String → String → List ObjPage × Option AwsError
  deleteObjects : String → List ObjectIdentifier → Except AwsError Unit

/-- isVersioningEnabled from folder.go. Returns the boolean result,
the (possibly updated) Config, and whether a GetBucketVersioning
backend query was issued. In the unknown ("") state it queries the
backend; a query failure returns false and caches nothing; a query
success caches enabled or disabled. Any other tri-state string falls
through the switch and returns false without a query. -/
def isVersioningEnabled (b : Backend) (f : Folder) (cfg : Config) :
    Bool × Config × Bool :=
  if cfg.enableVersioning = VersioningEnabled then (true, cfg, false)
  else if cfg.enableVersioning = VersioningDisabled then (false, cfg, false)
  else if cfg.enableVersioning = VersioningDefault then
    match b.getBucketVersioning f.bucket with
    | .error _ => (false, cfg, true)
    | .ok status =>
      if status = some BucketVersioningStatusEnabled then
        (true, { cfg with enableVersioning := VersioningEnabled }, true)
      else
        (false, { cfg with enableVersioning := VersioningDisabled }, true)
  else (false, cfg, false)

/-- SetVersioningEnabled from folder.go. Go evaluates
enable AND isVersioningEnabled() with short-circuit, so the
backend may be queried when enable is true; the second component
reports whether a query happened. -/
def SetVersioningEnabled (b : Backend) (f : Folder) (enable : Bool)
    (cfg : Config) : Config × Bool :=
  if enable then
    match isVersioningEnabled b f cfg with
    | (true, cfg2, q) => ({ cfg2 with enableVersioning := VersioningEnabled }, q)
    | (false, cfg2, q) => ({ cfg2 with enableVersioning := VersioningDisabled }, q)
  else ({ cfg with enableVersioning := VersioningDisabled }, false)

/-- The stream handed out by ReadObject: either the raw body or the
RangeReader wrapper installed when RangeBatchEnabled is set. -/
inductive Reader where
  | plain (body : List Nat)
  | range (body : List Nat) (path : String) (maxRetries : Int)
deriving DecidableEq, Repr

/-- Exists from folder.go (named ExistsObj because Exists is a core
Lean name): ok true when HeadObject succeeds, ok false on a not-exist
error code, and a wrapped error naming the full key otherwise. -/
def ExistsObj (b : Backend) (f : Folder) (rel : String) :
    Except StorageError Bool :=
  let objectPath := f.path ++ rel
  match b.headObject f.bucket objectPath with
  | .ok _ => .ok true
  | .error e =>
    if isAwsNotExist e then .ok false
    else .error (.wrapped
      ("failed to check s3 object " ++ sq ++ objectPath ++ sq ++ " existence") e)

/-- ReadObject from folder.go: a typed objectNotFound error on a
not-exist code, a wrapped error naming the full key otherwise, and on
success the body, wrapped in a RangeReader when configured. -/
def ReadObject (b : Backend) (f : Folder) (cfg : Config) (rel : String) :
    Except StorageError Reader :=
  let objectPath := f.path ++ rel
  match b.getObject f.bucket objectPath with
  | .error e =>
    if isAwsNotExist e then .error (.objectNotFound objectPath)
    else .error (.wrapped
      ("failed to read object: " ++ sq ++ objectPath ++ sq ++ " from S3") e)
  | .ok body =>
    if cfg.rangeBatchEnabled then .ok (.range body objectPath cfg.rangeMaxRetries)
    else .ok (.plain body)

/-- getObjectVersions from folder.go: one ListObjectVersions call with
the full key as the listing target, producing one identifier per
version followed by one per delete marker. -/
def getObjectVersions (b : Backend) (f : Folder) (key : String) :
    Except AwsError (List ObjectIdentifier) :=
  match b.listObjectVersions f.bucket (f.path ++ key) with
  | .error e => .error e
  | .ok out =>
    .ok (out.versions.map (fun v => ⟨v.key, some v.versionId⟩)
      ++ out.deleteMarkers.map (fun d => ⟨d.key, some d.versionId⟩))

/-- The per-key body of the partitionToObjects loop: under versioning
the identifiers returned by getObjectVersions (a failure is only
logged, so the nil version list contributes nothing); otherwise the
single plain identifier for the key. -/
def partitionKeyObjects (b : Backend) (f : Folder) (nv : Bool)
    (key : String) : List ObjectIdentifier :=
  if nv then
    match getObjectVersions b f key with
    | .error _ => []
    | .ok versions => versions
  else [⟨f.path ++ key, none⟩]

/-- partitionToObjects from folder.go: the append loop over keys. -/
def partitionToObjects (b : Backend) (f : Folder) (keys : List String)
    (nv : Bool) : List ObjectIdentifier :=
  keys.foldl (fun objects key => objects ++ partitionKeyObjects b f nv key) []

/-- The batch-splitting recursion, structurally recursive on a fuel
argument so that it reduces computationally; each step consumes at
least one key, so fuel equal to the list length never runs out. -/
def partitionStringsGo : Nat → List String → Nat → List (List String)
  | _, [], _ => []
  | 0, ls, _ => [ls]
  | fuel+1, x :: rest, n =>
    (x :: rest.take (n - 1)) :: partitionStringsGo fuel (rest.drop (n - 1)) n

/-- Modelled from the spec: partitionStrings (not under src) splits the
key list into consecutive batches of at most blockSize keys, preserving
order (2500 keys chunk as 1000/1000/500). -/
def partitionStrings (ls : List String) (n : Nat) : List (List String) :=
  partitionStringsGo ls.length ls n

/-- How the Go fmt verb renders a []string value, as interpolated into
the DeleteObjects error message. -/
def fmtStringSlice (l : List String) : String :=
  "[" ++ String.intercalate " " l ++ "]"

/-- The batch loop of DeleteObjects: issues one backend deleteObjects
call per batch, in order, stopping at the first failure with a wrapped
error naming the failed batch. Returns the trace of issued calls and
the result. -/
def deleteLoop (b : Backend) (f : Folder) (nv : Bool) :
    List (List String) → List (List ObjectIdentifier) × Option StorageError
  | [] => ([], none)
  | part :: rest =>
    let objs := partitionToObjects b f part nv
    match b.deleteObjects f.bucket objs with
    | .error e =>
      ([objs], some (.wrapped
        ("failed to delete s3 object: " ++ sq ++ fmtStringSlice part ++ sq) e))
    | .ok _ =>
      let r := deleteLoop b f nv rest
      (objs :: r.1, r.2)

/-- DeleteObjects from folder.go: partition into batches of 1000,
resolve the versioning mode once, then run the batch loop. -/
def DeleteObjects (b : Backend) (f : Folder) (cfg : Config)
    (keys : List String) :
    (List (List ObjectIdentifier) × Option StorageError) × Config :=
  let parts := partitionStrings keys 1000
  let v := isVersioningEnabled b f cfg
  (deleteLoop b f v.1 parts, v.2.1)

/-- listObjectsPages from folder.go: dispatch on UseListObjectsV1. -/
def listObjectsPages (b : Backend) (cfg : Config) (f : Folder)
    (pre delim : String) : List ObjPage × Option AwsError :=
  if cfg.useListObjectsV1 then b.listObjectsPagesV1 f.bucket pre delim
  else b.listObjectsPagesV2 f.bucket pre delim

/-- The listFunc closure of the plain ListFolder path, applied to one
page: append a sub-folder per common prefix, and one object per leaf
entry, skipping an entry whose key equals the folder prefix. -/
def plainPageStep (cfg : Config) (f : Folder)
    (acc : List StorageObj × List Folder) (pg : ObjPage) :
    List StorageObj × List Folder :=
  let fs := pg.commonPrefs.foldl
    (fun fs p => fs ++ [NewFolder cfg f.configRef p]) acc.2
  let os := pg.contents.foldl (fun os o =>
    if o.key = f.path then os
    else os ++ [NewLocalObject (goTrimPre o.key f.path) o.lastModified o.size]) acc.1
  (os, fs)

/-- The object built for a version entry in listVersions: the
additional info is the raw version id, suffixed with LATEST for the
entry flagged is-latest. -/
def versionObjOf (f : Folder) (o : VEntry) : StorageObj :=
  if o.isLatest then
    NewLocalObjectWithAdditionalInfo (goTrimPre o.key f.path) o.lastModified
      o.size (o.versionId ++ " LATEST")
  else
    NewLocalObjectWithAdditionalInfo (goTrimPre o.key f.path) o.lastModified
      o.size o.versionId

/-- The object built for a delete-marker entry in listVersions: size
zero, tagged like a version entry. -/
def markerObjOf (f : Folder) (o : MEntry) : StorageObj :=
  if o.isLatest then
    NewLocalObjectWithAdditionalInfo (goTrimPre o.key f.path) o.lastModified
      0 (o.versionId ++ " LATEST")
  else
    NewLocalObjectWithAdditionalInfo (goTrimPre o.key f.path) o.lastModified
      0 o.versionId

/-- The versionsListFunc closure of listVersions applied to one page:
sub-folders from common prefixes, then version entries, then
delete-marker entries, skipping entries whose key equals the folder
prefix. -/
def versionPageStep (cfg : Config) (f : Folder)
    (acc : List StorageObj × List Folder) (pg : VPage) :
    List StorageObj × List Folder :=
  let fs := pg.commonPrefs.foldl
    (fun fs p => fs ++ [NewFolder cfg f.configRef p]) acc.2
  let os1 := pg.versions.foldl (fun os o =>
    if o.key = f.path then os else os ++ [versionObjOf f o]) acc.1
  let os2 := pg.deleteMarkers.foldl (fun os o =>
    if o.key = f.path then os else os ++ [markerObjOf f o]) os1
  (os2, fs)

/-- listVersions from folder.go: fold the pages, then treat a
not-exist error as an empty-result success and wrap any other error. -/
def listVersions (b : Backend) (cfg : Config) (f : Folder)
    (pre delim : String) : List StorageObj × List Folder × Option StorageError :=
  let r := b.listObjectVersionsPages f.bucket pre delim
  let acc := r.1.foldl (versionPageStep cfg f) ([], [])
  match r.2 with
  | some e =>
    if isAwsNotExist e then (acc.1, acc.2, none)
    else ([], [],
      some (.wrapped ("failed to list s3 folder: " ++ sq ++ f.path ++ sq) e))
  | none => (acc.1, acc.2, none)

/-- ListFolder from folder.go: resolve versioning (possibly updating
the shared Config), then either the version-aware path or the plain
paginated path, with not-exist errors treated as empty results. -/
def ListFolder (b : Backend) (f : Folder) (cfg : Config) :
    (List StorageObj × List Folder × Option StorageError) × Config :=
  let v := isVersioningEnabled b f cfg
  let cfg1 := v.2.1
  if v.1 then
    match listVersions b cfg1 f f.path "/" with
    | (objs, subs, none) => ((objs, subs, none), cfg1)
    | (_, _, some e) => (([], [], some e), cfg1)
  else
    let r := listObjectsPages b cfg1 f f.path "/"
    let acc := r.1.foldl (plainPageStep cfg1 f) ([], [])
    match r.2 with
    | some e =>
      if isAwsNotExist e then ((acc.1, acc.2, none), cfg1)
      else (([], [],
        some (.wrapped ("failed to list s3 folder: " ++ sq ++ f.path ++ sq) e)), cfg1)
    | none => ((acc.1, acc.2, none), cfg1)

/-- The heap of shared Config cells: a Go *Config is an index into this
store, so two Folders with the same configRef share one mutable cell. -/
abbrev Store := List Config

def defaultConfig : Config := ⟨"", "", false, 0, false⟩

def storeGet (st : Store) (ref : Nat) : Config := st.getD ref defaultConfig

def storeSet (st : Store) (ref : Nat) (c : Config) : Store := st.set ref c

/-- isVersioningEnabled acting through the folder Config pointer:
reads the shared cell, runs the resolution, writes the cell back. -/
def storeIsVersioningEnabled (b : Backend) (f : Folder) (st : Store) :
    Bool × Store × Bool :=
  let r := isVersioningEnabled b f (storeGet st f.configRef)
  (r.1, storeSet st f.configRef r.2.1, r.2.2)

/-- GetSubFolder acting on the store: reads the shared Config cell for
the bucket name and hands the same cell to the sub-folder. -/
def storeGetSubFolder (st : Store) (f : Folder) (rel : String) : Folder :=
  GetSubFolder (storeGet st f.configRef) f rel

/-- The leaf objects contributed by one plain listing page: one object
per entry, except an entry whose key equals the folder prefix. -/
def pagePlainObjs (f : Folder) (pg : ObjPage) : List StorageObj :=
  pg.contents.filterMap (fun o =>
    if o.key = f.path then none
    else some (NewLocalObject (goTrimPre o.key f.path) o.lastModified o.size))

/-- The objects of a full plain listing, page by page. -/
def plainObjectsOf (f : Folder) (pages : List ObjPage) : List StorageObj :=
  pages.flatMap (pagePlainObjs f)

/-- The objects contributed by one version-aware listing page: the
version entries followed by the delete-marker entries, both skipping
keys equal to the folder prefix. -/
def versionPageObjs (f : Folder) (pg : VPage) : List StorageObj :=
  pg.versions.filterMap (fun o =>
    if o.key = f.path then none else some (versionObjOf f o))
  ++ pg.deleteMarkers.filterMap (fun o =>
    if o.key = f.path then none else some (markerObjOf f o))

/-- The objects of a full version-aware listing, page by page. -/
def versionObjectsOf (f : Folder) (pages : List VPage) : List StorageObj :=
  pages.flatMap (versionPageObjs f)

/- Concrete fixtures used by counterexamples and witnesses. -/

/-- A backend whose bucket reports versioning enabled and whose other
calls succeed with empty results. -/
def bOk : Backend where
  headObject := fun _ _ => .ok ()
  getObject := fun _ _ => .ok [7]
  getBucketVersioning := fun _ => .ok (some "Enabled")
  listObjectVersions := fun _ _ => .ok ⟨[], []⟩
  listObjectVersionsPages := fun _ _ _ => ([], none)
  listObjectsPagesV1 := fun _ _ _ => ([], none)
  listObjectsPagesV2 := fun _ _ _ => ([], none)
  deleteObjects := fun _ _ => .ok ()

/-- The folder used by concrete runs: bucket bk, prefix p/. -/
def f0 : Folder := ⟨"bk", "p/", 0⟩

/-- A configuration with the versioning tri-state explicitly disabled. -/
def cfgDisabled : Config := ⟨"bk", VersioningDisabled, false, 0, false⟩

/-- A configuration with the versioning tri-state explicitly enabled. -/
def cfgEnabled : Config := ⟨"bk", VersioningEnabled, false, 0, false⟩

/-- A configuration whose versioning tri-state is still unknown. -/
def cfgDefault : Config := ⟨"bk", VersioningDefault, false, 0, false⟩

/-- An AwsError carrying a not-exist code. -/
def eNF : AwsError := ⟨"NoSuchKey", "absent"⟩

/-- An AwsError carrying a code that is not a not-exist code. -/
def eDenied : AwsError := ⟨"AccessDenied", "denied"⟩

/-- A backend whose existence probe and read fail with NoSuchKey. -/
def bNF : Backend :=
  { bOk with
    headObject := fun _ _ => .error eNF
    getObject := fun _ _ => .error eNF }

/-- A backend whose existence probe and read fail with AccessDenied. -/
def bDenied : Backend :=
  { bOk with
    headObject := fun _ _ => .error eDenied
    getObject := fun _ _ => .error eDenied }

/-- A backend whose get-bucket-versioning query fails. -/
def bQFail : Backend :=
  { bOk with getBucketVersioning := fun _ => .error eDenied }

/-- A version-aware listing page fixture: two revisions of key p/a
(one latest), the folder self-marker p/, and one delete marker. -/
def vpage1 : VPage :=
  ⟨["p/sub/"],
   [⟨"p/a", "v1", true, 5, 3⟩, ⟨"p/a", "v0", false, 4, 2⟩,
    ⟨"p/", "vx", true, 1, 0⟩],
   [⟨"p/b", "v2", true, 6⟩]⟩

/-- A plain listing page fixture including the folder self-marker. -/
def opage1 : ObjPage := ⟨["p/sub/"], [⟨"p/a", 5, 3⟩, ⟨"p/", 1, 0⟩]⟩

/-- A backend serving the two listing fixtures. -/
def bList : Backend :=
  { bOk with
    listObjectVersionsPages := fun _ _ _ => ([vpage1], none)
    listObjectsPagesV2 := fun _ _ _ => ([opage1], none) }

/-- A backend whose batch delete call always fails. -/
def bDelFail : Backend :=
  { bOk with deleteObjects := fun _ _ => .error eDenied }

/-- The S3 semantics of a prefix-driven ListObjectVersions call over a
ground-truth version store: all records whose key starts with the
requested prefix. -/
def storeQuery (store : VersionsOut) (pre : String) : VersionsOut :=
  ⟨store.versions.filter (fun v => strStarts v.key pre),
   store.deleteMarkers.filter (fun d => strStarts d.key pre)⟩

/-- The backend answers version listings from the ground-truth store:
whenever a ListObjectVersions call succeeds, it returns exactly the
records under the requested prefix. -/
def ListingFaithful (b : Backend) (store : VersionsOut) : Prop :=
  ∀ bucket pre out, b.listObjectVersions bucket pre = .ok out →
    out = storeQuery store pre

/-- A transient (throttling) backend error. -/
def eThrottle : AwsError := ⟨"Throttling", "slow down"⟩

/-- A ground-truth store holding one revision of key p/a. -/
def vStore1 : VersionsOut := ⟨[⟨"p/a", "v1", true, 0, 3⟩], []⟩

/-- A backend whose per-key version listing fails while batch deletes
succeed. -/
def bC1 : Backend :=
  { bOk with listObjectVersions := fun _ _ => .error eThrottle }

/-- A ground-truth store with two revisions and a delete marker of
key p/a. -/
def vStoreW : VersionsOut :=
  ⟨[⟨"p/a", "v1", true, 5, 3⟩, ⟨"p/a", "v0", false, 4, 2⟩],
   [⟨"p/a", "v2", true, 6⟩]⟩

/-- A backend answering version listings faithfully from vStoreW. -/
def bC1W : Backend :=
  { bOk with listObjectVersions := fun _ pre => .ok (storeQuery vStoreW pre) }

/-- A one-cell store holding an unresolved configuration. -/
def st0 : Store := [cfgDefault]

/-- A parent folder whose Config cell is the single cell of st0. -/
def parentF : Folder := NewFolder cfgDefault 0 "base"

end S3

namespace Copying

/-- The uploader produced by internal.ConfigureUploaderToFolder. -/
structure UploaderIface where
  upload : String → List Nat → Except String Unit

/-- The storage.Folder capability as the copy engine consumes it
(an interface in Go): a read path, a path accessor, and the
uploader-configuration step for the destination side (modelled
abstractly; internal.ConfigureUploaderToFolder is not under src). -/
structure FolderIface where
  readObject : String → Except String (List Nat)
  getPath : String
  configureUploader : Except String UploaderIface

/-- InfoProvider from the copy package: one copy job. -/
structure InfoProvider where
  From : FolderIface
  SourceTransformer : Option (List Nat → Except String (List Nat))
  To : FolderIface
  SrcObj : S3.StorageObj
  targetName : String

/-- copyObject from the copy package: read the source object from its
source folder, apply the optional transform, configure an uploader for
the destination folder, upload under the target name; the first error
of any step is the job result, none on success. -/
def copyObject (ch : InfoProvider) : Option String :=
  match ch.From.readObject ch.SrcObj.name with
  | .error e => some e
  | .ok body =>
    let tr := match ch.SourceTransformer with
      | some t => t body
      | none => .ok body
    match tr with
    | .error e => some e
    | .ok r =>
      match ch.To.configureUploader with
      | .error e => some e
      | .ok up =>
        match up.upload ch.targetName r with
        | .error e => some e
        | .ok _ => none

/-- The error-drain loop of Infos: skip nil results and return the
first non-nil error observed. -/
def firstError : List (Option String) → Option String
  | [] => none
  | none :: rest => firstError rest
  | some e :: _ => some e

/-- Infos from the copy package. The ticket channel only bounds how
many jobs run at once (8) and never changes the returned value, so it
is not part of the model. sched is the order in which job results are
observed on the buffered errors channel: a permutation of the job
indices (admission is in list order, completion order is arbitrary).
Every drain loop, including the final one after the WaitGroup join,
returns the first non-nil error observed and skips nil results, so the
run returns the first non-nil result in observation order, and nil when
every job result is nil. -/
def Infos (chs : List InfoProvider) (sched : List Nat) : Option String :=
  firstError (sched.filterMap (fun i => (chs.map copyObject)[i]?))

/-- NoopRenameFunc from the copy package (the Go nil-interface guard
has no counterpart in the model): keeps the source object name. -/
def NoopRenameFunc (o : S3.StorageObj) : String := o.name

/-- BuildCopyingInfos from the copy package: the filtered append loop
over the source objects. -/
def BuildCopyingInfos (frm : FolderIface) (dst : FolderIface)
    (objects : List S3.StorageObj) (filter : S3.StorageObj → Bool)
    (renameFunc : S3.StorageObj → String)
    (sourceTransformer : Option (List Nat → Except String (List Nat))) :
    List InfoProvider :=
  objects.foldl (fun infos object =>
    if filter object then
      infos ++ [⟨frm, sourceTransformer, dst, object, renameFunc object⟩]
    else infos) []

/-- A copy-engine uploader that always succeeds. -/
def upOk : UploaderIface := ⟨fun _ _ => .ok ()⟩

/-- A source/destination folder whose reads succeed. -/
def okFolder : FolderIface := ⟨fun _ => .ok [1], "src/", .ok upOk⟩

/-- A source folder whose reads fail. -/
def badFolder : FolderIface := ⟨fun _ => .error "boom", "bad/", .ok upOk⟩

/-- A source object fixture for the copy engine. -/
def objA : S3.StorageObj := ⟨"a", 0, 1, ""⟩

/-- A job that succeeds. -/
def jobOk : InfoProvider := ⟨okFolder, none, okFolder, objA, "a"⟩

/-- A job whose read step fails. -/
def jobBad : InfoProvider := ⟨badFolder, none, okFolder, objA, "a"⟩

end Copying

/-- Appending loop to flatMap: the shape of the Go loops that append a
slice of results per element. -/
theorem aux_foldl_append {α β : Type} (g : α → List β) :
    ∀ (l : List α) (init : List β),
      l.foldl (fun acc x => acc ++ g x) init = init ++ l.flatMap g := by
  intro l
  induction l with
  | nil => intro init; simp
  | cons x xs ih => intro init; simp [ih]

/-- Appending loop to map: one appended element per input element. -/
theorem aux_foldl_append_one {α β : Type} (g : α → β) :
    ∀ (l : List α) (init : List β),
      l.foldl (fun acc x => acc ++ [g x]) init = init ++ l.map g := by
  intro l
  induction l with
  | nil => intro init; simp
  | cons x xs ih => intro init; simp [ih]

/-- Conditional appending loop to filter-then-map. -/
theorem aux_foldl_filter {α β : Type} (p : α → Bool) (g : α → β) :
    ∀ (l : List α) (init : List β),
      l.foldl (fun acc x => if p x then acc ++ [g x] else acc) init
        = init ++ (l.filter p).map g := by
  intro l
  induction l with
  | nil => intro init; simp
  | cons x xs ih =>
    intro init
    by_cases h : p x <;> simp [h, ih]

/-- Skipping loop to filterMap: elements satisfying q are dropped,
every other element contributes one result. -/
theorem aux_foldl_skip {α β : Type} (q : α → Prop) [DecidablePred q]
    (g : α → β) :
    ∀ (l : List α) (init : List β),
      l.foldl (fun acc x => if q x then acc else acc ++ [g x]) init
        = init ++ l.filterMap (fun x => if q x then none else some (g x)) := by
  intro l
  induction l with
  | nil => intro init; simp
  | cons x xs ih =>
    intro init
    by_cases h : q x <;> simp [h, ih]

/-- Looking every index of a list up in order recovers the list. -/
theorem aux_filterMap_range {α : Type} (xs : List α) :
    (List.range xs.length).filterMap (fun i => xs[i]?) = xs := by
  induction xs with
  | nil => simp
  | cons x xs ih =>
    simp [List.range_succ_eq_map, List.filterMap_cons, List.filterMap_map,
      Function.comp_def, Nat.succ_eq_add_one, List.getElem?_cons_succ, ih]

namespace Copying

/-- The drain loop returns none exactly when every observed result is
none. -/
theorem firstError_eq_none {l : List (Option String)} :
    firstError l = none ↔ ∀ x ∈ l, x = none := by
  induction l with
  | nil => simp [firstError]
  | cons x xs ih =>
    cases x with
    | none => simp [firstError, ih]
    | some e => simp [firstError]

/-- A non-none drain result is one of the observed results. -/
theorem firstError_some_mem {l : List (Option String)} {e : String}
    (h : firstError l = some e) : some e ∈ l := by
  induction l with
  | nil => simp [firstError] at h
  | cons x xs ih =>
    cases x with
    | none =>
      simp only [firstError] at h
      exact List.mem_cons_of_mem _ (ih h)
    | some e2 =>
      simp only [firstError, Option.some.injEq] at h
      subst h
      exact List.mem_cons_self _ _

/-- Claim C3: for any observation order of the job results (any
permutation of the job indices), Infos returns nil exactly when every
job copy completes without error, and when it returns an error, that
error is the result of one failed job (by construction of the model it
is the first failed job in observation order, i.e. the first one
detected). -/
theorem C3_infos_errors (chs : List InfoProvider) (sched : List Nat)
    (hperm : sched.Perm (List.range chs.length)) :
    (Infos chs sched = none ↔ ∀ ch ∈ chs, copyObject ch = none)
    ∧ (∀ e, Infos chs sched = some e → ∃ ch ∈ chs, copyObject ch = some e) := by
  have hlen : List.range chs.length = List.range (chs.map copyObject).length := by
    rw [List.length_map]
  rw [hlen] at hperm
  have hp : (sched.filterMap (fun i => (chs.map copyObject)[i]?)).Perm
      (chs.map copyObject) := by
    have h2 := List.Perm.filterMap (fun i => (chs.map copyObject)[i]?) hperm
    rw [aux_filterMap_range (chs.map copyObject)] at h2
    exact h2
  constructor
  · unfold Infos
    rw [firstError_eq_none]
    constructor
    · intro h ch hch
      exact h (copyObject ch) (hp.mem_iff.mpr (List.mem_map_of_mem _ hch))
    · intro h x hx
      have hm : x ∈ chs.map copyObject := hp.mem_iff.mp hx
      obtain ⟨ch, hch, rfl⟩ := List.mem_map.mp hm
      exact h ch hch
  · intro e he
    unfold Infos at he
    have h1 := firstError_some_mem he
    have h2 : some e ∈ chs.map copyObject := hp.mem_iff.mp h1
    obtain ⟨ch, hch, heq⟩ := List.mem_map.mp h2
    exact ⟨ch, hch, heq⟩

/-- Witness for C3_infos_errors: two jobs observed in reverse order. -/
theorem C3_infos_errors_witness :
    (Infos [jobOk, jobBad] [1, 0] = none
      ↔ ∀ ch ∈ [jobOk, jobBad], copyObject ch = none)
    ∧ (∀ e, Infos [jobOk, jobBad] [1, 0] = some e →
        ∃ ch ∈ [jobOk, jobBad], copyObject ch = some e) :=
  C3_infos_errors [jobOk, jobBad] [1, 0] (by decide)

/-- Claim C8: BuildCopyingInfos yields exactly one job per object
passing the filter, in input order, binding the given source and
destination folders, the source object, the renamed target name and
the transform; rejected objects produce no job. -/
theorem C8_build_copying_infos (frm dst : FolderIface)
    (objects : List S3.StorageObj) (filter : S3.StorageObj → Bool)
    (renameFunc : S3.StorageObj → String)
    (sourceTransformer : Option (List Nat → Except String (List Nat))) :
    BuildCopyingInfos frm dst objects filter renameFunc sourceTransformer
      = (objects.filter filter).map
          (fun o => ⟨frm, sourceTransformer, dst, o, renameFunc o⟩) := by
  have h := aux_foldl_filter filter
    (fun o => (⟨frm, sourceTransformer, dst, o, renameFunc o⟩ : InfoProvider))
    objects []
  simpa [BuildCopyingInfos] using h

end Copying


namespace S3

/-- Claim C2, counterexample: on a Folder whose cached tri-state is
disabled, SetVersioningEnabled true leaves the tri-state disabled, not
enabled; and on a Folder whose tri-state is unknown, the call issues a
GetBucketVersioning backend query. Both refute the claim that the call
sets the tri-state to enabled when the argument is true and issues no
backend query. -/
theorem C2_counterexample :
    (SetVersioningEnabled bOk f0 true cfgDisabled).1.enableVersioning
      = VersioningDisabled
    ∧ VersioningDisabled ≠ VersioningEnabled
    ∧ (SetVersioningEnabled bOk f0 true cfgDefault).2 = true := by
  refine ⟨by decide, by decide, by decide⟩

/-- Claim C2, amended: SetVersioningEnabled always leaves the
tri-state enabled or disabled; it leaves it enabled exactly when the
argument is true and isVersioningEnabled resolves to true (for an
unknown tri-state this consults the backend); and it issues a backend
query exactly when the argument is true and the tri-state was still
unknown. -/
theorem C2_set_versioning (b : Backend) (f : Folder) (cfg : Config)
    (enable : Bool) :
    ((SetVersioningEnabled b f enable cfg).1.enableVersioning
        = VersioningEnabled
      ↔ enable = true ∧ (isVersioningEnabled b f cfg).1 = true)
    ∧ ((SetVersioningEnabled b f enable cfg).1.enableVersioning
          = VersioningEnabled
        ∨ (SetVersioningEnabled b f enable cfg).1.enableVersioning
          = VersioningDisabled)
    ∧ ((SetVersioningEnabled b f enable cfg).2 = true
      ↔ enable = true ∧ cfg.enableVersioning = VersioningDefault) := by
  have hne : VersioningDisabled ≠ VersioningEnabled := by decide
  have d1 : VersioningDefault ≠ VersioningEnabled := by decide
  have d2 : VersioningDefault ≠ VersioningDisabled := by decide
  have d3 : VersioningEnabled ≠ VersioningDefault := by decide
  have d4 : VersioningDisabled ≠ VersioningDefault := by decide
  cases enable with
  | false =>
    refine ⟨by simp [SetVersioningEnabled, hne], ?_, by simp [SetVersioningEnabled]⟩
    simp [SetVersioningEnabled]
  | true =>
    unfold SetVersioningEnabled isVersioningEnabled
    by_cases h1 : cfg.enableVersioning = VersioningEnabled
    · simp [h1, d3]
    · by_cases h2 : cfg.enableVersioning = VersioningDisabled
      · simp [h1, h2, hne, d4]
      · by_cases h3 : cfg.enableVersioning = VersioningDefault
        · simp only [h1, h2, h3, if_false, if_true, if_neg, if_pos]
          cases hb : b.getBucketVersioning f.bucket with
          | error e => simp [hb, h1, h2, h3, hne, d1, d2]
          | ok status =>
            by_cases hs : status = some BucketVersioningStatusEnabled
            · simp [hb, hs, h1, h2, h3, d1, d2]
            · simp [hb, hs, h1, h2, h3, hne, d1, d2]
        · simp [h1, h2, h3, hne]

/-- Claim C5: when the backend signals a not-exist code (NotFound or
NoSuchKey), Exists returns (false, nil) and ReadObject returns the
typed ObjectNotFound error for the full key; for any other backend
failure both return a wrapped error whose message names the full key. -/
theorem C5_not_found (b : Backend) (f : Folder) (cfg : Config)
    (rel : String) (e : AwsError) :
    (b.headObject f.bucket (f.path ++ rel) = .error e →
      (isAwsNotExist e = true → ExistsObj b f rel = .ok false)
      ∧ (isAwsNotExist e = false → ExistsObj b f rel = .error (.wrapped
          ("failed to check s3 object " ++ sq ++ (f.path ++ rel) ++ sq
            ++ " existence") e)))
    ∧ (b.getObject f.bucket (f.path ++ rel) = .error e →
      (isAwsNotExist e = true →
        ReadObject b f cfg rel = .error (.objectNotFound (f.path ++ rel)))
      ∧ (isAwsNotExist e = false → ReadObject b f cfg rel = .error (.wrapped
          ("failed to read object: " ++ sq ++ (f.path ++ rel) ++ sq
            ++ " from S3") e))) := by
  constructor
  · intro h
    constructor <;> intro hn <;> simp [ExistsObj, h, hn]
  · intro h
    constructor <;> intro hn <;> simp [ReadObject, h, hn]

/-- Witness for C5_not_found: concrete not-exist and denied backends. -/
theorem C5_not_found_witness :
    (ExistsObj bNF f0 "x" = .ok false
      ∧ ReadObject bNF f0 cfgDefault "x" = .error (.objectNotFound (f0.path ++ "x")))
    ∧ (ExistsObj bDenied f0 "x" = .error (.wrapped
        ("failed to check s3 object " ++ sq ++ (f0.path ++ "x") ++ sq
          ++ " existence") eDenied)
      ∧ ReadObject bDenied f0 cfgDefault "x" = .error (.wrapped
        ("failed to read object: " ++ sq ++ (f0.path ++ "x") ++ sq
          ++ " from S3") eDenied)) :=
  ⟨⟨((C5_not_found bNF f0 cfgDefault "x" eNF).1 rfl).1 (by decide),
    ((C5_not_found bNF f0 cfgDefault "x" eNF).2 rfl).1 (by decide)⟩,
   ⟨((C5_not_found bDenied f0 cfgDefault "x" eDenied).1 rfl).2 (by decide),
    ((C5_not_found bDenied f0 cfgDefault "x" eDenied).2 rfl).2 (by decide)⟩⟩

/-- Claim C10: with the tri-state still unknown and the backend
get-bucket-versioning query failing, isVersioningEnabled returns false,
caches nothing (the Config is unchanged, so any later call queries the
backend again), and the triggering operation runs in unversioned mode:
its observable outcome equals that of the same call on a Config with
versioning explicitly disabled. -/
theorem C10_query_failure (b b2 : Backend) (f : Folder) (cfg : Config)
    (e : AwsError) (keys : List String)
    (hc : cfg.enableVersioning = VersioningDefault)
    (hq : b.getBucketVersioning f.bucket = .error e) :
    isVersioningEnabled b f cfg = (false, cfg, true)
    ∧ (isVersioningEnabled b2 f (isVersioningEnabled b f cfg).2.1).2.2 = true
    ∧ (DeleteObjects b f cfg keys).1
      = (DeleteObjects b f { cfg with enableVersioning := VersioningDisabled } keys).1
    ∧ (ListFolder b f cfg).1
      = (ListFolder b f { cfg with enableVersioning := VersioningDisabled }).1 := by
  have dDE : VersioningDisabled ≠ VersioningEnabled := by decide
  have d1 : VersioningDefault ≠ VersioningEnabled := by decide
  have d2 : VersioningDefault ≠ VersioningDisabled := by decide
  have h1 : isVersioningEnabled b f cfg = (false, cfg, true) := by
    simp [isVersioningEnabled, hc, hq, d1, d2]
  have h2 : isVersioningEnabled b f { cfg with enableVersioning := VersioningDisabled }
      = (false, { cfg with enableVersioning := VersioningDisabled }, false) := by
    simp [isVersioningEnabled, dDE]
  refine ⟨h1, ?_, ?_, ?_⟩
  · rw [h1]
    cases hb : b2.getBucketVersioning f.bucket with
    | error e2 => simp [isVersioningEnabled, hc, hb, d1, d2]
    | ok status =>
      by_cases hs : status = some BucketVersioningStatusEnabled
      · simp [isVersioningEnabled, hc, hb, hs, d1, d2]
      · simp [isVersioningEnabled, hc, hb, hs, d1, d2]
  · simp only [DeleteObjects, h1, h2]
  · have hlop : listObjectsPages b { cfg with enableVersioning := VersioningDisabled } f f.path "/"
        = listObjectsPages b cfg f f.path "/" := rfl
    have hstep : plainPageStep { cfg with enableVersioning := VersioningDisabled } f
        = plainPageStep cfg f := rfl
    simp only [ListFolder, h1, h2, hlop, hstep]
    cases hpg : (listObjectsPages b cfg f f.path "/").2 with
    | none => rfl
    | some e2 =>
      by_cases hne : isAwsNotExist e2 = true <;> simp [hne]

/-- Witness for C10_query_failure: a concrete unresolved Folder whose
bucket-versioning query fails. -/
theorem C10_query_failure_witness :
    isVersioningEnabled bQFail f0 cfgDefault = (false, cfgDefault, true)
    ∧ (isVersioningEnabled bOk f0 (isVersioningEnabled bQFail f0 cfgDefault).2.1).2.2 = true
    ∧ (DeleteObjects bQFail f0 cfgDefault ["a"]).1
      = (DeleteObjects bQFail f0
          { cfgDefault with enableVersioning := VersioningDisabled } ["a"]).1
    ∧ (ListFolder bQFail f0 cfgDefault).1
      = (ListFolder bQFail f0
          { cfgDefault with enableVersioning := VersioningDisabled }).1 :=
  C10_query_failure bQFail bOk f0 cfgDefault eDenied ["a"] rfl rfl

/-- A conditional skip produces some exactly on non-skipped input. -/
theorem aux_ite_none_some {α : Type} {c : Prop} [Decidable c] {x y : α} :
    ((if c then none else some x) = some y) ↔ (¬c ∧ y = x) := by
  by_cases h : c <;> simp [h, eq_comm]

/-- One plain page of the listFunc loop appends exactly the page
objects. -/
theorem plainPageStep_fst (cfg : Config) (f : Folder)
    (acc : List StorageObj × List Folder) (pg : ObjPage) :
    (plainPageStep cfg f acc pg).1 = acc.1 ++ pagePlainObjs f pg := by
  have h := aux_foldl_skip (fun o : ObjEntry => o.key = f.path)
    (fun o => NewLocalObject (goTrimPre o.key f.path) o.lastModified o.size)
    pg.contents acc.1
  simpa [plainPageStep, pagePlainObjs] using h

/-- Folding the plain listFunc over all pages appends the full plain
listing. -/
theorem fold_plainPageStep (cfg : Config) (f : Folder) :
    ∀ (pages : List ObjPage) (acc : List StorageObj × List Folder),
      (pages.foldl (plainPageStep cfg f) acc).1
        = acc.1 ++ plainObjectsOf f pages := by
  intro pages
  induction pages with
  | nil => intro acc; simp [plainObjectsOf]
  | cons pg pgs ih =>
    intro acc
    rw [List.foldl_cons, ih, plainPageStep_fst]
    simp [plainObjectsOf]

/-- One version-aware page of the versionsListFunc loop appends
exactly the page objects. -/
theorem versionPageStep_fst (cfg : Config) (f : Folder)
    (acc : List StorageObj × List Folder) (pg : VPage) :
    (versionPageStep cfg f acc pg).1 = acc.1 ++ versionPageObjs f pg := by
  have h1 := aux_foldl_skip (fun o : VEntry => o.key = f.path)
    (fun o => versionObjOf f o) pg.versions acc.1
  have h2 := aux_foldl_skip (fun o : MEntry => o.key = f.path)
    (fun o => markerObjOf f o) pg.deleteMarkers
    (pg.versions.foldl
      (fun os o => if o.key = f.path then os else os ++ [versionObjOf f o]) acc.1)
  rw [h1] at h2
  simp only [versionPageStep]
  rw [h1, h2, versionPageObjs]
  simp [List.append_assoc]

/-- Folding the versionsListFunc over all pages appends the full
version-aware listing. -/
theorem fold_versionPageStep (cfg : Config) (f : Folder) :
    ∀ (pages : List VPage) (acc : List StorageObj × List Folder),
      (pages.foldl (versionPageStep cfg f) acc).1
        = acc.1 ++ versionObjectsOf f pages := by
  intro pages
  induction pages with
  | nil => intro acc; simp [versionObjectsOf]
  | cons pg pgs ih =>
    intro acc
    rw [List.foldl_cons, ih, versionPageStep_fst]
    simp [versionObjectsOf]

/-- On the plain path, a listing whose error (if any) is a not-exist
code yields exactly the plain listing objects. -/
theorem ListFolder_plain_objects (b : Backend) (f : Folder) (cfg : Config)
    (hv : (isVersioningEnabled b f cfg).1 = false)
    (herr : ∀ e,
      (listObjectsPages b (isVersioningEnabled b f cfg).2.1 f f.path "/").2 = some e
        → isAwsNotExist e = true) :
    (ListFolder b f cfg).1.1
      = plainObjectsOf f
          (listObjectsPages b (isVersioningEnabled b f cfg).2.1 f f.path "/").1 := by
  simp only [ListFolder, hv, Bool.false_eq_true, if_false]
  cases hpg : (listObjectsPages b (isVersioningEnabled b f cfg).2.1 f f.path "/").2 with
  | none => simp [hpg, fold_plainPageStep]
  | some e =>
    have hne := herr e hpg
    simp [hpg, hne, fold_plainPageStep]

/-- On the version-aware path, a listing whose error (if any) is a
not-exist code yields exactly the version-aware listing objects. -/
theorem ListFolder_versioned_objects (b : Backend) (f : Folder) (cfg : Config)
    (hv : (isVersioningEnabled b f cfg).1 = true)
    (herr : ∀ e, (b.listObjectVersionsPages f.bucket f.path "/").2 = some e
        → isAwsNotExist e = true) :
    (ListFolder b f cfg).1.1
      = versionObjectsOf f (b.listObjectVersionsPages f.bucket f.path "/").1 := by
  simp only [ListFolder, hv, if_true, listVersions]
  cases hpg : (b.listObjectVersionsPages f.bucket f.path "/").2 with
  | none => simp [hpg, fold_versionPageStep]
  | some e =>
    have hne := herr e hpg
    simp [hpg, hne, fold_versionPageStep]

/-- Membership in a plain listing: exactly the non-self entries. -/
theorem mem_plainObjectsOf {f : Folder} {pages : List ObjPage}
    {obj : StorageObj} :
    obj ∈ plainObjectsOf f pages ↔ ∃ pg ∈ pages, ∃ o ∈ pg.contents,
      ¬o.key = f.path
      ∧ NewLocalObject (goTrimPre o.key f.path) o.lastModified o.size = obj := by
  simp [plainObjectsOf, pagePlainObjs, List.mem_flatMap, List.mem_filterMap,
    aux_ite_none_some]

/-- Membership in a version-aware listing: exactly the non-self
version entries and non-self delete-marker entries. -/
theorem mem_versionObjectsOf {f : Folder} {pages : List VPage}
    {obj : StorageObj} :
    obj ∈ versionObjectsOf f pages ↔ ∃ pg ∈ pages,
      ((∃ o ∈ pg.versions, ¬o.key = f.path ∧ versionObjOf f o = obj)
        ∨ (∃ o ∈ pg.deleteMarkers, ¬o.key = f.path ∧ markerObjOf f o = obj)) := by
  simp [versionObjectsOf, versionPageObjs, List.mem_flatMap, List.mem_append,
    List.mem_filterMap, aux_ite_none_some]

/-- The additional info of a version-entry object. -/
theorem versionObjOf_info (f : Folder) (o : VEntry) :
    (versionObjOf f o).additionalInfo
      = if o.isLatest then o.versionId ++ " LATEST" else o.versionId := by
  cases h : o.isLatest <;>
    simp [versionObjOf, h, NewLocalObjectWithAdditionalInfo]

/-- The size of a version-entry object. -/
theorem versionObjOf_size (f : Folder) (o : VEntry) :
    (versionObjOf f o).size = o.size := by
  cases h : o.isLatest <;>
    simp [versionObjOf, h, NewLocalObjectWithAdditionalInfo]

/-- The additional info of a delete-marker object. -/
theorem markerObjOf_info (f : Folder) (o : MEntry) :
    (markerObjOf f o).additionalInfo
      = if o.isLatest then o.versionId ++ " LATEST" else o.versionId := by
  cases h : o.isLatest <;>
    simp [markerObjOf, h, NewLocalObjectWithAdditionalInfo]

/-- The size of a delete-marker object is zero. -/
theorem markerObjOf_size (f : Folder) (o : MEntry) :
    (markerObjOf f o).size = 0 := by
  cases h : o.isLatest <;>
    simp [markerObjOf, h, NewLocalObjectWithAdditionalInfo]

/-- Claim C7: on both listing paths, an entry whose key equals the
folder prefix is excluded, every other leaf entry is returned, and the
returned objects are exactly those of the non-self entries, in order. -/
theorem C7_self_marker (b : Backend) (f : Folder) (cfg : Config) :
    ((isVersioningEnabled b f cfg).1 = false →
      (∀ e, (listObjectsPages b (isVersioningEnabled b f cfg).2.1 f f.path "/").2
          = some e → isAwsNotExist e = true) →
      (ListFolder b f cfg).1.1
        = plainObjectsOf f
            (listObjectsPages b (isVersioningEnabled b f cfg).2.1 f f.path "/").1
      ∧ (∀ obj ∈ (ListFolder b f cfg).1.1,
          ∃ pg ∈ (listObjectsPages b (isVersioningEnabled b f cfg).2.1 f f.path "/").1,
            ∃ o ∈ pg.contents, ¬o.key = f.path
              ∧ NewLocalObject (goTrimPre o.key f.path) o.lastModified o.size = obj)
      ∧ (∀ pg ∈ (listObjectsPages b (isVersioningEnabled b f cfg).2.1 f f.path "/").1,
          ∀ o ∈ pg.contents, ¬o.key = f.path →
            NewLocalObject (goTrimPre o.key f.path) o.lastModified o.size
              ∈ (ListFolder b f cfg).1.1))
    ∧ ((isVersioningEnabled b f cfg).1 = true →
      (∀ e, (b.listObjectVersionsPages f.bucket f.path "/").2 = some e
          → isAwsNotExist e = true) →
      (ListFolder b f cfg).1.1
        = versionObjectsOf f (b.listObjectVersionsPages f.bucket f.path "/").1
      ∧ (∀ obj ∈ (ListFolder b f cfg).1.1,
          ∃ pg ∈ (b.listObjectVersionsPages f.bucket f.path "/").1,
            ((∃ o ∈ pg.versions, ¬o.key = f.path ∧ versionObjOf f o = obj)
              ∨ (∃ o ∈ pg.deleteMarkers, ¬o.key = f.path ∧ markerObjOf f o = obj)))
      ∧ (∀ pg ∈ (b.listObjectVersionsPages f.bucket f.path "/").1,
          (∀ o ∈ pg.versions, ¬o.key = f.path →
            versionObjOf f o ∈ (ListFolder b f cfg).1.1)
          ∧ (∀ o ∈ pg.deleteMarkers, ¬o.key = f.path →
            markerObjOf f o ∈ (ListFolder b f cfg).1.1))) := by
  constructor
  · intro hv herr
    have hchar := ListFolder_plain_objects b f cfg hv herr
    refine ⟨hchar, ?_, ?_⟩
    · intro obj hobj
      rw [hchar] at hobj
      exact mem_plainObjectsOf.mp hobj
    · intro pg hpg o ho hne
      rw [hchar]
      exact mem_plainObjectsOf.mpr ⟨pg, hpg, o, ho, hne, rfl⟩
  · intro hv herr
    have hchar := ListFolder_versioned_objects b f cfg hv herr
    refine ⟨hchar, ?_, ?_⟩
    · intro obj hobj
      rw [hchar] at hobj
      exact mem_versionObjectsOf.mp hobj
    · intro pg hpg
      constructor
      · intro o ho hne
        rw [hchar]
        exact mem_versionObjectsOf.mpr ⟨pg, hpg, Or.inl ⟨o, ho, hne, rfl⟩⟩
      · intro o ho hne
        rw [hchar]
        exact mem_versionObjectsOf.mpr ⟨pg, hpg, Or.inr ⟨o, ho, hne, rfl⟩⟩

/-- Witness for C7_self_marker: both paths run on concrete pages that
contain the folder self-marker. -/
theorem C7_self_marker_witness :
    (ListFolder bList f0 cfgDisabled).1.1
      = plainObjectsOf f0
          (listObjectsPages bList
            (isVersioningEnabled bList f0 cfgDisabled).2.1 f0 f0.path "/").1
    ∧ (ListFolder bList f0 cfgEnabled).1.1
      = versionObjectsOf f0 (bList.listObjectVersionsPages f0.bucket f0.path "/").1 :=
  ⟨((C7_self_marker bList f0 cfgDisabled).1 (by decide)
      (fun e h => by exact Option.noConfusion h)).1,
   ((C7_self_marker bList f0 cfgEnabled).2 (by decide)
      (fun e h => by exact Option.noConfusion h)).1⟩

/-- Claim C6: on a version-aware listing, every returned object carries
the additional info of its source entry -- the raw version id, plus the
LATEST tag exactly when the backend flags the revision is-latest -- and
every delete-marker entry is returned as a size-zero object. -/
theorem C6_version_tags (b : Backend) (f : Folder) (cfg : Config)
    (hv : (isVersioningEnabled b f cfg).1 = true)
    (herr : ∀ e, (b.listObjectVersionsPages f.bucket f.path "/").2 = some e
        → isAwsNotExist e = true) :
    (∀ obj ∈ (ListFolder b f cfg).1.1,
      ∃ pg ∈ (b.listObjectVersionsPages f.bucket f.path "/").1,
        ((∃ o ∈ pg.versions,
            obj.additionalInfo
              = (if o.isLatest then o.versionId ++ " LATEST" else o.versionId)
            ∧ obj.size = o.size)
          ∨ (∃ o ∈ pg.deleteMarkers,
            obj.additionalInfo
              = (if o.isLatest then o.versionId ++ " LATEST" else o.versionId)
            ∧ obj.size = 0)))
    ∧ (∀ pg ∈ (b.listObjectVersionsPages f.bucket f.path "/").1,
        (∀ o ∈ pg.versions, ¬o.key = f.path →
          versionObjOf f o ∈ (ListFolder b f cfg).1.1
          ∧ (versionObjOf f o).additionalInfo
            = (if o.isLatest then o.versionId ++ " LATEST" else o.versionId)
          ∧ (versionObjOf f o).size = o.size)
        ∧ (∀ o ∈ pg.deleteMarkers, ¬o.key = f.path →
          markerObjOf f o ∈ (ListFolder b f cfg).1.1
          ∧ (markerObjOf f o).size = 0
          ∧ (markerObjOf f o).additionalInfo
            = (if o.isLatest then o.versionId ++ " LATEST" else o.versionId))) := by
  have hchar := ListFolder_versioned_objects b f cfg hv herr
  constructor
  · intro obj hobj
    rw [hchar] at hobj
    obtain ⟨pg, hpg, hcase⟩ := mem_versionObjectsOf.mp hobj
    refine ⟨pg, hpg, ?_⟩
    cases hcase with
    | inl h =>
      obtain ⟨o, ho, hne, rfl⟩ := h
      exact Or.inl ⟨o, ho, versionObjOf_info f o, versionObjOf_size f o⟩
    | inr h =>
      obtain ⟨o, ho, hne, rfl⟩ := h
      exact Or.inr ⟨o, ho, markerObjOf_info f o, markerObjOf_size f o⟩
  · intro pg hpg
    constructor
    · intro o ho hne
      refine ⟨?_, versionObjOf_info f o, versionObjOf_size f o⟩
      rw [hchar]
      exact mem_versionObjectsOf.mpr ⟨pg, hpg, Or.inl ⟨o, ho, hne, rfl⟩⟩
    · intro o ho hne
      refine ⟨?_, markerObjOf_size f o, markerObjOf_info f o⟩
      rw [hchar]
      exact mem_versionObjectsOf.mpr ⟨pg, hpg, Or.inr ⟨o, ho, hne, rfl⟩⟩

/-- Witness for C6_version_tags: in the concrete versioned listing,
the latest revision of p/a is returned tagged v1 LATEST with its size,
and the delete marker of p/b is returned with size zero. -/
theorem C6_version_tags_witness :
    (versionObjOf f0 ⟨"p/a", "v1", true, 5, 3⟩
        ∈ (ListFolder bList f0 cfgEnabled).1.1
      ∧ (versionObjOf f0 ⟨"p/a", "v1", true, 5, 3⟩).additionalInfo
          = (if (⟨"p/a", "v1", true, 5, 3⟩ : VEntry).isLatest
             then (⟨"p/a", "v1", true, 5, 3⟩ : VEntry).versionId ++ " LATEST"
             else (⟨"p/a", "v1", true, 5, 3⟩ : VEntry).versionId)
      ∧ (versionObjOf f0 ⟨"p/a", "v1", true, 5, 3⟩).size
          = (⟨"p/a", "v1", true, 5, 3⟩ : VEntry).size)
    ∧ (markerObjOf f0 ⟨"p/b", "v2", true, 6⟩
        ∈ (ListFolder bList f0 cfgEnabled).1.1
      ∧ (markerObjOf f0 ⟨"p/b", "v2", true, 6⟩).size = 0
      ∧ (markerObjOf f0 ⟨"p/b", "v2", true, 6⟩).additionalInfo
          = (if (⟨"p/b", "v2", true, 6⟩ : MEntry).isLatest
             then (⟨"p/b", "v2", true, 6⟩ : MEntry).versionId ++ " LATEST"
             else (⟨"p/b", "v2", true, 6⟩ : MEntry).versionId)) :=
  ⟨((C6_version_tags bList f0 cfgEnabled (by decide)
      (fun e h => by exact Option.noConfusion h)).2 vpage1 (by decide)).1
    ⟨"p/a", "v1", true, 5, 3⟩ (by decide) (by decide),
   ((C6_version_tags bList f0 cfgEnabled (by decide)
      (fun e h => by exact Option.noConfusion h)).2 vpage1 (by decide)).2
    ⟨"p/b", "v2", true, 6⟩ (by decide) (by decide)⟩

/-- With enough fuel, the batches concatenate back to the list. -/
theorem partitionStringsGo_flatten :
    ∀ (fuel : Nat) (ls : List String) (n : Nat), ls.length ≤ fuel →
      (partitionStringsGo fuel ls n).flatten = ls := by
  intro fuel
  induction fuel with
  | zero =>
    intro ls n h
    cases ls with
    | nil => simp [partitionStringsGo]
    | cons x rest => simp at h
  | succ fuel ih =>
    intro ls n h
    cases ls with
    | nil => simp [partitionStringsGo]
    | cons x rest =>
      have hle : (rest.drop (n-1)).length ≤ fuel := by
        rw [List.length_drop]
        simp only [List.length_cons] at h
        omega
      simp only [partitionStringsGo, List.flatten_cons]
      rw [ih (rest.drop (n-1)) n hle, List.cons_append, List.take_append_drop]

/-- The batches concatenate, in order, to the original key list. -/
theorem partitionStrings_flatten :
    ∀ (ls : List String) (n : Nat), (partitionStrings ls n).flatten = ls := by
  intro ls n
  exact partitionStringsGo_flatten ls.length ls n le_rfl

/-- With enough fuel, every batch is nonempty and within block size. -/
theorem partitionStringsGo_parts :
    ∀ (fuel : Nat) (ls : List String) (n : Nat), 0 < n → ls.length ≤ fuel →
      ∀ part ∈ partitionStringsGo fuel ls n,
        0 < part.length ∧ part.length ≤ n := by
  intro fuel
  induction fuel with
  | zero =>
    intro ls n hn h part hp
    cases ls with
    | nil => simp [partitionStringsGo] at hp
    | cons x rest => simp at h
  | succ fuel ih =>
    intro ls n hn h part hp
    cases ls with
    | nil => simp [partitionStringsGo] at hp
    | cons x rest =>
      simp only [partitionStringsGo, List.mem_cons] at hp
      cases hp with
      | inl he =>
        subst he
        constructor
        · simp
        · simp [List.length_take]
          omega
      | inr hm =>
        have hle : (rest.drop (n-1)).length ≤ fuel := by
          rw [List.length_drop]
          simp only [List.length_cons] at h
          omega
        exact ih (rest.drop (n-1)) n hn hle part hm

/-- Every batch is nonempty and no larger than the block size. -/
theorem partitionStrings_parts : ∀ (ls : List String) (n : Nat), 0 < n →
    ∀ part ∈ partitionStrings ls n, 0 < part.length ∧ part.length ≤ n := by
  intro ls n hn
  exact partitionStringsGo_parts ls.length ls n hn le_rfl

/-- With enough fuel and block size 1000 there are ceil(n/1000)
batches. -/
theorem partitionStringsGo_count :
    ∀ (fuel : Nat) (ls : List String), ls.length ≤ fuel →
      (partitionStringsGo fuel ls 1000).length = (ls.length + 999) / 1000 := by
  intro fuel
  induction fuel with
  | zero =>
    intro ls h
    cases ls with
    | nil => simp [partitionStringsGo]
    | cons x rest => simp at h
  | succ fuel ih =>
    intro ls h
    cases ls with
    | nil => simp [partitionStringsGo]
    | cons x rest =>
      have hle : (rest.drop (1000-1)).length ≤ fuel := by
        rw [List.length_drop]
        simp only [List.length_cons] at h
        omega
      have h2 := ih (rest.drop (1000-1)) hle
      simp only [partitionStringsGo, List.length_cons, h2, List.length_drop]
      omega

/-- With block size 1000 there are exactly ceil(n/1000) batches. -/
theorem partitionStrings_count (len : Nat) : ∀ ls : List String,
    ls.length = len → (partitionStrings ls 1000).length = (len + 999) / 1000 := by
  intro ls hl
  subst hl
  exact partitionStringsGo_count ls.length ls le_rfl

/-- The identifier list of a batch is the per-key contributions in
key order. -/
theorem partitionToObjects_eq (b : Backend) (f : Folder)
    (keys : List String) (nv : Bool) :
    partitionToObjects b f keys nv
      = keys.flatMap (partitionKeyObjects b f nv) := by
  have h := aux_foldl_append (partitionKeyObjects b f nv) keys []
  simpa [partitionToObjects] using h

/-- A successful batch loop issues every batch, in order, and every
backend call succeeded. -/
theorem deleteLoop_none (b : Backend) (f : Folder) (nv : Bool) :
    ∀ parts : List (List String), (deleteLoop b f nv parts).2 = none →
      (deleteLoop b f nv parts).1
        = parts.map (fun p => partitionToObjects b f p nv)
      ∧ ∀ p ∈ parts,
          b.deleteObjects f.bucket (partitionToObjects b f p nv) = .ok () := by
  intro parts
  induction parts with
  | nil => intro _; simp [deleteLoop]
  | cons part rest ih =>
    intro h
    cases hc : b.deleteObjects f.bucket (partitionToObjects b f part nv) with
    | error e => simp [deleteLoop, hc] at h
    | ok u =>
      cases u
      simp only [deleteLoop, hc] at h ⊢
      obtain ⟨h1, h2⟩ := ih h
      refine ⟨by simp [h1], ?_⟩
      intro p hp
      cases List.mem_cons.mp hp with
      | inl he => subst he; exact hc
      | inr hm => exact h2 p hm

/-- A failing batch loop stops at the first failing batch: the calls
issued are exactly the batches up to and including the failing one,
all earlier calls succeeded, and the returned error wraps the failing
batch key set. -/
theorem deleteLoop_some (b : Backend) (f : Folder) (nv : Bool) :
    ∀ (parts : List (List String)) (err : StorageError),
      (deleteLoop b f nv parts).2 = some err →
      ∃ j e pj, parts[j]? = some pj
        ∧ b.deleteObjects f.bucket (partitionToObjects b f pj nv) = .error e
        ∧ err = .wrapped
            ("failed to delete s3 object: " ++ sq ++ fmtStringSlice pj ++ sq) e
        ∧ (deleteLoop b f nv parts).1
          = (parts.take (j+1)).map (fun p => partitionToObjects b f p nv)
        ∧ (∀ i pi, i < j → parts[i]? = some pi →
            b.deleteObjects f.bucket (partitionToObjects b f pi nv) = .ok ()) := by
  intro parts
  induction parts with
  | nil => intro err h; simp [deleteLoop] at h
  | cons part rest ih =>
    intro err h
    cases hc : b.deleteObjects f.bucket (partitionToObjects b f part nv) with
    | error e =>
      refine ⟨0, e, part, by simp, hc, ?_, ?_, ?_⟩
      · simp only [deleteLoop, hc] at h
        exact (Option.some.inj h).symm
      · simp [deleteLoop, hc]
      · intro i pi hi
        omega
    | ok u =>
      cases u
      simp only [deleteLoop, hc] at h
      obtain ⟨j, e, pj, hj, he, herr, htr, hpre⟩ := ih err h
      refine ⟨j + 1, e, pj, by simpa using hj, he, herr, ?_, ?_⟩
      · simp only [deleteLoop, hc, List.take_succ_cons, List.map_cons]
        simp [htr]
      · intro i pi hi hpi
        cases i with
        | zero =>
          simp only [List.getElem?_cons_zero, Option.some.injEq] at hpi
          subst hpi
          exact hc
        | succ i2 =>
          simp only [List.getElem?_cons_succ] at hpi
          exact hpre i2 pi (by omega) hpi

/-- Claim C4: DeleteObjects partitions the n keys into ceil(n/1000)
batches of at most 1000 keys, concatenating in list order; on success
it issues exactly one backend call per batch, in order; on failure it
stops after the first failing batch, returns an error wrapping that
batch key set, and the calls issued are exactly the batches up to the
failing one, the earlier ones all succeeded (no retry, and the backend
offers no rollback call). -/
theorem C4_delete_batches (b : Backend) (f : Folder) (cfg : Config)
    (keys : List String) :
    (partitionStrings keys 1000).flatten = keys
    ∧ (∀ part ∈ partitionStrings keys 1000,
        0 < part.length ∧ part.length ≤ 1000)
    ∧ (partitionStrings keys 1000).length = (keys.length + 999) / 1000
    ∧ ((isVersioningEnabled b f cfg).1 = false →
        ∀ part ∈ partitionStrings keys 1000,
          partitionToObjects b f part (isVersioningEnabled b f cfg).1
            = part.map (fun key => ⟨f.path ++ key, none⟩))
    ∧ ((DeleteObjects b f cfg keys).1.2 = none →
        (DeleteObjects b f cfg keys).1.1
          = (partitionStrings keys 1000).map
              (fun p => partitionToObjects b f p (isVersioningEnabled b f cfg).1)
        ∧ (DeleteObjects b f cfg keys).1.1.length = (keys.length + 999) / 1000
        ∧ ∀ p ∈ partitionStrings keys 1000,
            b.deleteObjects f.bucket
              (partitionToObjects b f p (isVersioningEnabled b f cfg).1) = .ok ())
    ∧ (∀ err, (DeleteObjects b f cfg keys).1.2 = some err →
        ∃ j e pj, (partitionStrings keys 1000)[j]? = some pj
          ∧ b.deleteObjects f.bucket
              (partitionToObjects b f pj (isVersioningEnabled b f cfg).1) = .error e
          ∧ err = .wrapped
              ("failed to delete s3 object: " ++ sq ++ fmtStringSlice pj ++ sq) e
          ∧ (DeleteObjects b f cfg keys).1.1
            = ((partitionStrings keys 1000).take (j+1)).map
                (fun p => partitionToObjects b f p (isVersioningEnabled b f cfg).1)
          ∧ (∀ i pi, i < j → (partitionStrings keys 1000)[i]? = some pi →
              b.deleteObjects f.bucket
                (partitionToObjects b f pi (isVersioningEnabled b f cfg).1)
                  = .ok ())) := by
  refine ⟨partitionStrings_flatten keys 1000,
    fun part hp => partitionStrings_parts keys 1000 (by omega) part hp,
    partitionStrings_count keys.length keys rfl, ?_, ?_, ?_⟩
  · intro hv part hp
    rw [hv, partitionToObjects_eq]
    clear hp
    induction part with
    | nil => simp
    | cons k ks ih => simp [partitionKeyObjects, ih]
  · intro h
    have h2 := deleteLoop_none b f (isVersioningEnabled b f cfg).1
      (partitionStrings keys 1000) h
    refine ⟨h2.1, ?_, h2.2⟩
    show (deleteLoop b f (isVersioningEnabled b f cfg).1
      (partitionStrings keys 1000)).1.length = (keys.length + 999) / 1000
    rw [h2.1, List.length_map]
    exact partitionStrings_count keys.length keys rfl
  · intro err h
    exact deleteLoop_some b f (isVersioningEnabled b f cfg).1
      (partitionStrings keys 1000) err h

/-- Witness for C4_delete_batches: a succeeding two-key delete and a
failing one-key delete. -/
theorem C4_delete_batches_witness :
    ((DeleteObjects bOk f0 cfgDisabled ["a", "b"]).1.1
      = (partitionStrings ["a", "b"] 1000).map
          (fun p => partitionToObjects bOk f0 p
            (isVersioningEnabled bOk f0 cfgDisabled).1))
    ∧ (∃ j e pj, (partitionStrings ["a"] 1000)[j]? = some pj
        ∧ bDelFail.deleteObjects f0.bucket
            (partitionToObjects bDelFail f0 pj
              (isVersioningEnabled bDelFail f0 cfgDisabled).1) = .error e
        ∧ StorageError.wrapped
            ("failed to delete s3 object: " ++ sq ++ fmtStringSlice ["a"] ++ sq)
            eDenied
          = .wrapped
            ("failed to delete s3 object: " ++ sq ++ fmtStringSlice pj ++ sq) e
        ∧ (DeleteObjects bDelFail f0 cfgDisabled ["a"]).1.1
          = ((partitionStrings ["a"] 1000).take (j+1)).map
              (fun p => partitionToObjects bDelFail f0 p
                (isVersioningEnabled bDelFail f0 cfgDisabled).1)
        ∧ (∀ i pi, i < j → (partitionStrings ["a"] 1000)[i]? = some pi →
            bDelFail.deleteObjects f0.bucket
              (partitionToObjects bDelFail f0 pi
                (isVersioningEnabled bDelFail f0 cfgDisabled).1) = .ok ())) :=
  ⟨((C4_delete_batches bOk f0 cfgDisabled ["a", "b"]).2.2.2.2.1 (by decide)).1,
   (C4_delete_batches bDelFail f0 cfgDisabled ["a"]).2.2.2.2.2
     (StorageError.wrapped
       ("failed to delete s3 object: " ++ sq ++ fmtStringSlice ["a"] ++ sq)
       eDenied)
     (by decide)⟩

/-- A string starts with itself. -/
theorem strStarts_self (s : String) : strStarts s s = true := by
  simp [strStarts, List.isPrefixOf_iff_prefix]

/-- Claim C1, counterexample: with versioning enabled, the per-key
version listing fails (the code only logs it), the batch delete call
succeeds, and DeleteObjects returns success -- yet the stored revision
(p/a, v1) of the listed key a was never included among the deletion
identifiers sent to the backend, so it remains retrievable after a
successful return. -/
theorem C1_counterexample :
    ListingFaithful bC1 vStore1
    ∧ cfgEnabled.enableVersioning = VersioningEnabled
    ∧ (DeleteObjects bC1 f0 cfgEnabled ["a"]).1.2 = none
    ∧ ((⟨"p/a", "v1", true, 0, 3⟩ : VEntry) ∈ vStore1.versions
        ∧ "p/a" = f0.path ++ "a")
    ∧ (⟨"p/a", some "v1"⟩ : ObjectIdentifier)
        ∉ (DeleteObjects bC1 f0 cfgEnabled ["a"]).1.1.flatten := by
  refine ⟨?_, by decide, by decide, ⟨by decide, by decide⟩, by decide⟩
  intro bucket pre out h
  exact Except.noConfusion h

/-- Claim C1, amended: when the mode resolves to versioning and the
per-key version listing succeeds for every listed key, a successful
DeleteObjects has sent, among its deletion identifiers, one (key,
version-id) pair for every stored revision and delete marker of every
listed key. (When a per-key listing fails, the failure is only logged
and the key revisions are silently omitted.) -/
theorem C1_delete_versions (b : Backend) (f : Folder) (cfg : Config)
    (store : VersionsOut) (keys : List String)
    (hfaith : ListingFaithful b store)
    (hok : ∀ key ∈ keys, ∃ out,
      b.listObjectVersions f.bucket (f.path ++ key) = .ok out)
    (hres : (DeleteObjects b f cfg keys).1.2 = none)
    (hv : (isVersioningEnabled b f cfg).1 = true) :
    (∀ v ∈ store.versions, ∀ key ∈ keys, v.key = f.path ++ key →
      (⟨v.key, some v.versionId⟩ : ObjectIdentifier)
        ∈ (DeleteObjects b f cfg keys).1.1.flatten)
    ∧ (∀ d ∈ store.deleteMarkers, ∀ key ∈ keys, d.key = f.path ++ key →
      (⟨d.key, some d.versionId⟩ : ObjectIdentifier)
        ∈ (DeleteObjects b f cfg keys).1.1.flatten) := by
  have hDel : (DeleteObjects b f cfg keys).1.1
      = (partitionStrings keys 1000).map
          (fun p => partitionToObjects b f p (isVersioningEnabled b f cfg).1) :=
    (deleteLoop_none b f (isVersioningEnabled b f cfg).1
      (partitionStrings keys 1000) hres).1
  have main : ∀ (ident : ObjectIdentifier) (key : String), key ∈ keys →
      ident ∈ partitionKeyObjects b f true key →
      ident ∈ (DeleteObjects b f cfg keys).1.1.flatten := by
    intro ident key hk hik
    rw [hDel]
    have hkp : key ∈ (partitionStrings keys 1000).flatten := by
      rw [partitionStrings_flatten]
      exact hk
    obtain ⟨part, hpart, hkpart⟩ := List.mem_flatten.mp hkp
    refine List.mem_flatten.mpr
      ⟨partitionToObjects b f part (isVersioningEnabled b f cfg).1,
        List.mem_map_of_mem _ hpart, ?_⟩
    rw [hv, partitionToObjects_eq]
    exact List.mem_flatMap.mpr ⟨key, hkpart, hik⟩
  constructor
  · intro v hvm key hk hkey
    obtain ⟨out2, hout⟩ := hok key hk
    have hout2 : out2 = storeQuery store (f.path ++ key) := hfaith _ _ _ hout
    refine main _ key hk ?_
    simp only [partitionKeyObjects, getObjectVersions, hout, if_true]
    subst hout2
    simp only [storeQuery]
    apply List.mem_append_left
    refine List.mem_map.mpr ⟨v, ?_, rfl⟩
    refine List.mem_filter.mpr ⟨hvm, ?_⟩
    rw [hkey]
    exact strStarts_self (f.path ++ key)
  · intro d hdm key hk hkey
    obtain ⟨out2, hout⟩ := hok key hk
    have hout2 : out2 = storeQuery store (f.path ++ key) := hfaith _ _ _ hout
    refine main _ key hk ?_
    simp only [partitionKeyObjects, getObjectVersions, hout, if_true]
    subst hout2
    simp only [storeQuery]
    apply List.mem_append_right
    refine List.mem_map.mpr ⟨d, ?_, rfl⟩
    refine List.mem_filter.mpr ⟨hdm, ?_⟩
    rw [hkey]
    exact strStarts_self (f.path ++ key)

/-- Witness for C1_delete_versions: a faithful backend with two
revisions and a delete marker of the listed key. -/
theorem C1_delete_versions_witness :
    (∀ v ∈ vStoreW.versions, ∀ key ∈ ["a"], v.key = f0.path ++ key →
      (⟨v.key, some v.versionId⟩ : ObjectIdentifier)
        ∈ (DeleteObjects bC1W f0 cfgEnabled ["a"]).1.1.flatten)
    ∧ (∀ d ∈ vStoreW.deleteMarkers, ∀ key ∈ ["a"], d.key = f0.path ++ key →
      (⟨d.key, some d.versionId⟩ : ObjectIdentifier)
        ∈ (DeleteObjects bC1W f0 cfgEnabled ["a"]).1.1.flatten) :=
  C1_delete_versions bC1W f0 cfgEnabled vStoreW ["a"]
    (fun _ _ _ h => (Except.ok.inj h).symm)
    (fun key _ => ⟨storeQuery vStoreW (f0.path ++ key), rfl⟩)
    (by decide) (by decide)

/-- Claim C9, counterexample: resolving the versioning mode through a
sub-folder mutates the shared Config cell, and the change is
observable through the parent: afterwards the parent resolves to
enabled without any backend query, even against a backend whose query
would fail. -/
theorem C9_counterexample :
    storeGet ((storeIsVersioningEnabled bOk
        (storeGetSubFolder st0 parentF "x") st0).2.1) parentF.configRef
      ≠ storeGet st0 parentF.configRef
    ∧ (storeIsVersioningEnabled bQFail parentF
        ((storeIsVersioningEnabled bOk
          (storeGetSubFolder st0 parentF "x") st0).2.1)).1 = true
    ∧ (storeIsVersioningEnabled bQFail parentF
        ((storeIsVersioningEnabled bOk
          (storeGetSubFolder st0 parentF "x") st0).2.1)).2.2 = false := by
  refine ⟨by decide, by decide, by decide⟩

/-- Claim C9, amended: GetSubFolder is pure prefix concatenation and
performs no backend call, but parent and sub-folder share the Config
cell by reference: the sub-folder keeps the parent configRef, and a
versioning resolution through the sub-folder writes the cell the
parent reads. -/
theorem C9_subfolder_shares_config (st : Store) (b : Backend) (f : Folder)
    (rel : String) (hlt : f.configRef < st.length) :
    (storeGetSubFolder st f rel).configRef = f.configRef
    ∧ (storeGetSubFolder st f rel).path
        = AddDelimiterToPath (goTrimPre (JoinPath f.path rel ++ "/") "/")
    ∧ (storeGetSubFolder st f rel).bucket = (storeGet st f.configRef).bucket
    ∧ storeGet ((storeIsVersioningEnabled b
          (storeGetSubFolder st f rel) st).2.1) f.configRef
        = (isVersioningEnabled b (storeGetSubFolder st f rel)
            (storeGet st f.configRef)).2.1 := by
  refine ⟨rfl, rfl, rfl, ?_⟩
  simp only [storeIsVersioningEnabled, storeGet, storeSet]
  rw [show (storeGetSubFolder st f rel).configRef = f.configRef from rfl,
    List.getD_eq_getElem?_getD, List.getElem?_set_self hlt]
  rfl

/-- Witness for C9_subfolder_shares_config at the concrete one-cell
store. -/
theorem C9_subfolder_shares_config_witness :
    (storeGetSubFolder st0 parentF "x").configRef = parentF.configRef
    ∧ (storeGetSubFolder st0 parentF "x").path
        = AddDelimiterToPath (goTrimPre (JoinPath parentF.path "x" ++ "/") "/")
    ∧ (storeGetSubFolder st0 parentF "x").bucket
        = (storeGet st0 parentF.configRef).bucket
    ∧ storeGet ((storeIsVersioningEnabled bOk
          (storeGetSubFolder st0 parentF "x") st0).2.1) parentF.configRef
        = (isVersioningEnabled bOk (storeGetSubFolder st0 parentF "x")
            (storeGet st0 parentF.configRef)).2.1 :=
  C9_subfolder_shares_config st0 bOk parentF "x" (by decide)

/-- Witness for C2_set_versioning at a concrete input: with the
tri-state unknown and a bucket reporting versioning enabled,
SetVersioningEnabled true caches enabled and queried the backend. -/
theorem C2_set_versioning_witness :
    ((SetVersioningEnabled bOk f0 true cfgDefault).1.enableVersioning
        = VersioningEnabled
      ↔ true = true ∧ (isVersioningEnabled bOk f0 cfgDefault).1 = true)
    ∧ ((SetVersioningEnabled bOk f0 true cfgDefault).1.enableVersioning
          = VersioningEnabled
        ∨ (SetVersioningEnabled bOk f0 true cfgDefault).1.enableVersioning
          = VersioningDisabled)
    ∧ ((SetVersioningEnabled bOk f0 true cfgDefault).2 = true
      ↔ true = true ∧ cfgDefault.enableVersioning = VersioningDefault) :=
  C2_set_versioning bOk f0 cfgDefault true

end S3
